import Mathlib


/-!
Verification development for the Kubernetes → Harness IDP catalog
synchronization script (`kubernetes-harness-idp-catalog-sync.py`).

Shallow embedding conventions:
* Python strings are `List Char` (`Str`); Python dicts are association
  lists in insertion order, looked up with `dictGet` (first match, as
  Python dicts have unique keys).
* The Kubernetes API, the Harness registry and GitHub are external; the
  registry is modelled as an oracle `Bool → CallResult` mapping the
  request mode (`true` = the `operationMode=UPSERT` request) to the
  response, where a response is either an HTTP status plus body or a
  transport-level exception.
* Lowercasing uses `Char.toLower`, which agrees with Python's
  `str.lower` on ASCII; every claim proved below is insensitive to the
  behaviour on non-ASCII characters.
-/

namespace CatalogSync

/-- Python strings, character by character. -/
abbrev Str := List Char

/-- `d.get(k)` on a Python dict modelled as an association list. -/
def dictGet {α : Type} (d : List (Str × α)) (k : Str) : Option α :=
  (d.find? (fun p => p.1 == k)).map (fun p => p.2)

/-- Characters kept by `re.sub(r"[^a-z0-9_$]", "_", name)`. -/
def isAllowedChar (c : Char) : Bool :=
  (decide ('a' ≤ c) && decide (c ≤ 'z')) ||
  (decide ('0' ≤ c) && decide (c ≤ '9')) ||
  c == '_' || c == '$'

/-- First-character test of `re.match(r"^[a-z_]", name)`. -/
def startsOk (c : Char) : Bool :=
  (decide ('a' ≤ c) && decide (c ≤ 'z')) || c == '_'

/-- One character of `re.sub(r"[^a-z0-9_$]", "_", name)`. -/
def fixChar (c : Char) : Char :=
  if isAllowedChar c then c else '_'

/-- `if not re.match(r"^[a-z_]", name): name = f"k8s_{name}"`. -/
def prefixIfNeeded (name : Str) : Str :=
  match name with
  | [] => ("k8s_".toList) ++ name
  | c :: _ => if startsOk c then name else ("k8s_".toList) ++ name

/-- `generate_harness_identifier(resource_name, resource_namespace,
resource_kind)`: concatenate `namespace_kind_name`, lower-case, replace
characters outside `[a-z0-9_$]` with `_`, prefix `k8s_` when the result
does not start with `[a-z_]`, truncate to 128 characters. -/
def generate_harness_identifier (resourceName resourceNamespace resourceKind : Str) : Str :=
  let name := (resourceNamespace ++ ['_'] ++ resourceKind ++ ['_'] ++ resourceName).map Char.toLower
  (prefixIfNeeded (name.map fixChar)).take 128

/-- Matching `^[a-z_][a-z0-9_$]*$`: nonempty, head in `[a-z_]`, tail in
`[a-z0-9_$]`. -/
def matchesIdentRegex : Str → Bool
  | [] => false
  | c :: cs => startsOk c && cs.all isAllowedChar

/-! ## Resource snapshot model (`get_kubernetes_resources`) -/

/-- The string constant `"Deployment"` used as the `kind` field. -/
def kDeployment : Str := "Deployment".toList

/-- The string constant `"Service"` used as the `kind` field. -/
def kService : Str := "Service".toList

/-- The string constant `"Pod"` used as the `kind` field. -/
def kPod : Str := "Pod".toList

/-- One discovered resource dict. Deployments carry `labels`,
`env_vars` and `selector`; Services carry `labels` and `selector`
(with `env_vars = []`, matching the absent key); Pods carry `labels`
only. `svcMap` is the `service_to_deployment_map` attached to every
resource dict after discovery (empty before attachment). -/
structure Resource where
  name : Str
  ns : Str
  kind : Str
  labels : List (Str × Str)
  env_vars : List (Str × Str)
  selector : List (Str × Str)
  svcMap : List (Str × List Str)
deriving DecidableEq, Repr

/-- The match test on line 170:
`service_selector and all(deployment_labels.get(k) == v
for k, v in service_selector.items() if k in deployment_labels)`.
Note the `if k in deployment_labels` filter: selector keys absent from
the deployment's labels are skipped, not treated as failures. -/
def selectorCodeMatch (serviceSelector deploymentLabels : List (Str × Str)) : Bool :=
  !serviceSelector.isEmpty &&
    (serviceSelector.filter (fun kv => (dictGet deploymentLabels kv.1).isSome)).all
      (fun kv => dictGet deploymentLabels kv.1 == some kv.2)

/-- Modelled on the spec's words (§4.3 Step A), for comparison with
`selectorCodeMatch`: the deployment must carry every selector key with
the matching value; an absent key is non-matching. -/
def selectorSpecMatch (serviceSelector deploymentLabels : List (Str × Str)) : Bool :=
  !serviceSelector.isEmpty &&
    serviceSelector.all (fun kv => dictGet deploymentLabels kv.1 == some kv.2)

/-- The inner loop of lines 165–171: names of Deployment resources
whose labels pass `selectorCodeMatch` against the given selector, in
snapshot order. -/
def implementingDeployments (resources : List Resource) (serviceSelector : List (Str × Str)) : List Str :=
  (resources.filter (fun r => r.kind == kDeployment)).filterMap
    (fun r => if selectorCodeMatch serviceSelector r.labels then some r.name else none)

/-- Python `map[key] = value`: overwrite in place when the key exists,
append otherwise. -/
def dictSet (d : List (Str × List Str)) (k : Str) (v : List Str) : List (Str × List Str) :=
  if (d.find? (fun p => p.1 == k)).isSome
  then d.map (fun p => if p.1 == k then (k, v) else p)
  else d ++ [(k, v)]

/-- Lines 157–174: build `service_to_deployment_map`. `allServices` is
the `all_services` list accumulated during discovery, which consists of
exactly the Service records of `resources`, in order. -/
def buildServiceToDeploymentMap (allServices : List Resource) (resources : List Resource) : List (Str × List Str) :=
  allServices.foldl
    (fun m service =>
      let impl := implementingDeployments resources service.selector
      if impl.isEmpty then m else dictSet m service.name impl)
    []

/-- Lines 157–178: the post-discovery phase of
`get_kubernetes_resources`, taking the already-fetched resource list
(cluster access is external) and attaching the single
`service_to_deployment_map` to every resource dict. -/
def attachServiceMap (resources : List Resource) : List Resource :=
  let m := buildServiceToDeploymentMap (resources.filter (fun r => r.kind == kService)) resources
  resources.map (fun r => { r with svcMap := m })

/-- A concrete Deployment fixture: labels `{app: x}`, one environment
value referencing `svc_a`. -/
def depA : Resource :=
  { name := "dep_a".toList, ns := "ns1".toList, kind := kDeployment,
    labels := [("app".toList, "x".toList)],
    env_vars := [("TARGET".toList, "http://svc_a:8080".toList)],
    selector := [("app".toList, "x".toList)], svcMap := [] }

/-- A concrete Service fixture with selector `{app: x}`. -/
def svcA : Resource :=
  { name := "svc_a".toList, ns := "ns1".toList, kind := kService,
    labels := [], env_vars := [],
    selector := [("app".toList, "x".toList)], svcMap := [] }

/-- A second concrete Deployment fixture also carrying `{app: x}`. -/
def depB : Resource :=
  { name := "dep_b".toList, ns := "ns1".toList, kind := kDeployment,
    labels := [("app".toList, "x".toList)], env_vars := [],
    selector := [("app".toList, "x".toList)], svcMap := [] }

/-- A concrete two-resource snapshot. -/
def snapA : List Resource := [depA, svcA]

/-! ## Dependency detection (`create_harness_entity`, lines 201–235) -/

/-- One entry of the `dependencies` list: `via` is present exactly for
indirect (through-a-service) dependencies. -/
structure Dep where
  name : Str
  identifier : Str
  type : Str
  via : Option Str
deriving DecidableEq, Repr

/-- `l₁` is a leading segment of `l₂` (character-wise). -/
def leadsList : Str → Str → Bool
  | [], _ => true
  | _ :: _, [] => false
  | a :: as, b :: bs => a == b && leadsList as bs

/-- Python's substring containment `needle in haystack`. -/
def isSubstr (needle : Str) : Str → Bool
  | [] => needle.isEmpty
  | h :: t => leadsList needle (h :: t) || isSubstr needle t

/-- `service_name.lower() in env_value.lower()`. -/
def isSubstrCI (needle haystack : Str) : Bool :=
  isSubstr (needle.map Char.toLower) (haystack.map Char.toLower)

/-- Lines 219–235: indirect dependencies through one matched service —
deployments from the attached `service_to_deployment_map` entry,
skipping self-references and names with no Deployment record. -/
def indirectDepsFor (resource : Resource) (rs : List Resource) (serviceName : Str) : List Dep :=
  match dictGet resource.svcMap serviceName with
  | none => []
  | some depNames =>
    depNames.filterMap (fun depName =>
      if depName == resource.name then none
      else
        match rs.find? (fun r => r.kind == kDeployment && r.name == depName) with
        | none => none
        | some depRes =>
          some { name := depName,
                 identifier := generate_harness_identifier depName depRes.ns depRes.kind,
                 type := kDeployment, via := some serviceName })

/-- Lines 206–235, inner service loop for one environment value: a
direct Service dependency for every Service whose name occurs
case-insensitively in the value, each followed by its indirect
deployment dependencies. -/
def depsForEnvValue (resource : Resource) (rs : List Resource) (envValue : Str) : List Dep :=
  (rs.filter (fun r => r.kind == kService)).flatMap (fun svc =>
    if isSubstrCI svc.name envValue then
      { name := svc.name, identifier := generate_harness_identifier svc.name svc.ns svc.kind,
        type := kService, via := none } :: indirectDepsFor resource rs svc.name
    else [])

/-- Lines 201–235: the full `dependencies` list. Dependencies are
computed only when `all_resources` is truthy (not `None`, not empty)
and the resource is a Deployment. -/
def computeDependencies (resource : Resource) (allResources : Option (List Resource)) : List Dep :=
  match allResources with
  | none => []
  | some rs =>
    if rs.isEmpty then []
    else if resource.kind == kDeployment then
      resource.env_vars.flatMap (fun kv => depsForEnvValue resource rs kv.2)
    else []

/-- `depA` with the service map `{svc_a: [dep_a, dep_b]}` attached, as
after discovery. -/
def depAFull : Resource :=
  { depA with svcMap := [("svc_a".toList, ["dep_a".toList, "dep_b".toList])] }

/-- A concrete three-resource snapshot in which `dep_a` references
`svc_a`, and both `dep_a` and `dep_b` implement it. -/
def snapB : List Resource := [depAFull, svcA, depB]

/-- The indirect dependency entry emitted for `dep_b` via `svc_a`. -/
def depBIndirect : Dep :=
  { name := "dep_b".toList,
    identifier := generate_harness_identifier "dep_b".toList "ns1".toList kDeployment,
    type := kDeployment, via := some "svc_a".toList }

/-! ## Synchronization client (`register_in_harness`, lines 341–403) -/

/-- An HTTP response from the registry: status code and body text. -/
structure Resp where
  status : Nat
  body : Str
deriving DecidableEq, Repr

/-- Outcome of attempting one HTTP POST: a response, or a
transport-level exception raised by the HTTP client. -/
inductive CallResult where
  | ok (r : Resp)
  | exn
deriving DecidableEq, Repr

/-- `response.status_code >= 200 and response.status_code < 300`. -/
def is2xx (status : Nat) : Bool :=
  decide (200 ≤ status) && decide (status < 300)

/-- Lines 379–381: `response.status_code == 400 and ("already exists"
in response.text.lower() or "does not match" in response.text.lower()
or "already a file" in response.text.lower())`. -/
def isConflict400 (r : Resp) : Bool :=
  r.status == 400 &&
    (isSubstr ("already exists".toList) (r.body.map Char.toLower) ||
     isSubstr ("does not match".toList) (r.body.map Char.toLower) ||
     isSubstr ("already a file".toList) (r.body.map Char.toLower))

/-- Lines 391–398: handling of the UPSERT retry's outcome (an
exception during the retry is caught by the enclosing `try`). -/
def handleUpsert : CallResult → Bool × List Bool
  | .exn => (false, [false, true])
  | .ok r2 => if is2xx r2.status then (true, [false, true]) else (false, [false, true])

/-- Lines 368–403: handling of the first request's outcome. -/
def handleFirst (oracle : Bool → CallResult) : CallResult → Bool × List Bool
  | .exn => (false, [false])
  | .ok r =>
    if is2xx r.status then (true, [false])
    else if isConflict400 r then handleUpsert (oracle true)
    else (false, [false])

/-- `register_in_harness` (lines 341–403) over a registry oracle
mapping the request mode (`true` = the `operationMode=UPSERT` request)
to the call outcome. Returns the function's boolean result together
with the modes of the HTTP requests attempted, in order. -/
def register_in_harness (oracle : Bool → CallResult) : Bool × List Bool :=
  handleFirst oracle (oracle false)

/-- A registry oracle answering every request with HTTP 409 and an
"already exists" message. -/
def conflict409Oracle : Bool → CallResult :=
  fun _ => CallResult.ok { status := 409, body := "entity already exists".toList }

/-- A registry oracle whose first response is a 400 conflict and whose
upsert response is 200. -/
def conflictThenOkOracle : Bool → CallResult :=
  fun upsert =>
    if upsert then CallResult.ok { status := 200, body := [] }
    else CallResult.ok { status := 400, body := "already exists".toList }

/-! ## Entity creation and the main loop (lines 188–293 and 405–452) -/

/-- The structured content of the `idp.yaml` document assembled on
lines 237–283; the textual rendering and git placement metadata are
deterministic functions of these fields plus fixed configuration, and
no claim depends on the rendered text itself. -/
structure CatalogDoc where
  identifier : Str
  displayName : Str
  ns : Str
  subtype : Str
  dependsOn : List Dep
deriving DecidableEq, Repr

/-- One outbound HTTP call of the script: a registry entity POST (with
its upsert mode), or a GitHub contents PUT (only ever made by
`push_to_github`). -/
inductive Call where
  | registry (upsert : Bool)
  | github
deriving DecidableEq, Repr

/-- `create_harness_entity` (lines 188–293): skip Pods entirely;
otherwise build the identifier, the dependency list and the document,
and call `register_in_harness`. Returns the function's boolean result,
the document built (`none` for Pods), and the HTTP calls made. Note
line 292–293: the value returned by `register_in_harness` is
discarded and the function returns `True` for every non-Pod
resource. -/
def create_harness_entity (oracle : Bool → CallResult) (resource : Resource)
    (allResources : Option (List Resource)) : Bool × Option CatalogDoc × List Call :=
  if resource.kind == kPod then (false, none, [])
  else
    let deps := computeDependencies resource allResources
    let doc : CatalogDoc :=
      { identifier := generate_harness_identifier resource.name resource.ns resource.kind,
        displayName := resource.name, ns := resource.ns, subtype := resource.kind,
        dependsOn := deps }
    (true, some doc, (register_in_harness oracle).2.map Call.registry)

/-- The counters, call trace and per-resource outcomes of `main`'s
processing loop and summary (lines 433–452). -/
structure RunSummary where
  total : Nat
  githubSuccessCount : Nat
  harnessSuccessCount : Nat
  calls : List Call
  outcomes : List Bool
deriving DecidableEq, Repr

/-- One iteration of the loop on lines 437–446: both counters are
incremented from the same boolean returned by
`create_harness_entity`. -/
def mainStep (oracles : Nat → Bool → CallResult) (resources : List Resource)
    (analyzeDependencies : Bool) (acc : RunSummary) (ir : Nat × Resource) : RunSummary :=
  let out := create_harness_entity (oracles ir.1) ir.2
    (if analyzeDependencies then some resources else none)
  { total := acc.total,
    githubSuccessCount :=
      if out.1 then acc.githubSuccessCount + 1 else acc.githubSuccessCount,
    harnessSuccessCount :=
      if out.1 then acc.harnessSuccessCount + 1 else acc.harnessSuccessCount,
    calls := acc.calls ++ out.2.2,
    outcomes := acc.outcomes ++ [out.1] }

/-- Lines 433–452 of `main`: process every discovered resource in
order (the registry oracle of the resource at position `i` is
`oracles i`) and report the summary counts. -/
def mainLoop (oracles : Nat → Bool → CallResult) (resources : List Resource)
    (analyzeDependencies : Bool) : RunSummary :=
  resources.enum.foldl (mainStep oracles resources analyzeDependencies)
    { total := resources.length, githubSuccessCount := 0, harnessSuccessCount := 0,
      calls := [], outcomes := [] }

/-- A concrete Pod fixture. -/
def podA : Resource :=
  { name := "pod_a".toList, ns := "ns1".toList, kind := kPod,
    labels := [("app".toList, "x".toList)], env_vars := [], selector := [], svcMap := [] }

/-! ## Lemmas and theorems -/

lemma isAllowedChar_fixChar (c : Char) : isAllowedChar (fixChar c) = true := by
  unfold fixChar
  by_cases h : isAllowedChar c = true
  · simp [h]
  · simp [h]
    decide

lemma all_isAllowedChar_map_fixChar (l : Str) :
    (l.map fixChar).all isAllowedChar = true := by
  simp [List.all_eq_true]
  intro c _
  exact isAllowedChar_fixChar c

lemma all_take (p : Char → Bool) (l : Str) (n : Nat) (h : l.all p = true) :
    (l.take n).all p = true := by
  simp [List.all_eq_true] at h ⊢
  intro c hc
  exact h c (List.mem_of_mem_take hc)

lemma matchesIdentRegex_take (l : Str) (n : Nat) (hn : 0 < n)
    (h : matchesIdentRegex l = true) : matchesIdentRegex (l.take n) = true := by
  cases l with
  | nil => simp [matchesIdentRegex] at h
  | cons c cs =>
    cases n with
    | zero => omega
    | succ m =>
      simp [matchesIdentRegex, List.all_eq_true] at h ⊢
      exact ⟨h.1, fun c hc => h.2 c (List.mem_of_mem_take hc)⟩

lemma matchesIdentRegex_k8s_append (l : Str) (h : l.all isAllowedChar = true) :
    matchesIdentRegex (("k8s_".toList) ++ l) = true := by
  simp [List.all_eq_true] at h
  simp [matchesIdentRegex, List.all_eq_true]
  exact ⟨by decide, by decide, by decide, by decide, h⟩

lemma matchesIdentRegex_prefixIfNeeded (l : Str) (h : l.all isAllowedChar = true) :
    matchesIdentRegex (prefixIfNeeded l) = true := by
  cases l with
  | nil => decide
  | cons c cs =>
    rw [List.all_cons, Bool.and_eq_true] at h
    by_cases hs : startsOk c = true
    · simp only [prefixIfNeeded, hs, if_true]
      simp [matchesIdentRegex, hs, h.2]
    · simp only [prefixIfNeeded, hs, if_false]
      exact matchesIdentRegex_k8s_append _ (by rw [List.all_cons, Bool.and_eq_true]; exact h)

/-- C5: for all input strings, the generated identifier matches
`^[a-z_][a-z0-9_$]*$` and has length at most 128 characters. -/
theorem generate_harness_identifier_legal (resourceName resourceNamespace resourceKind : Str) :
    matchesIdentRegex (generate_harness_identifier resourceName resourceNamespace resourceKind) = true ∧
    (generate_harness_identifier resourceName resourceNamespace resourceKind).length ≤ 128 := by
  unfold generate_harness_identifier
  refine ⟨matchesIdentRegex_take _ _ (by norm_num)
    (matchesIdentRegex_prefixIfNeeded _ (all_isAllowedChar_map_fixChar _)), ?_⟩
  exact List.length_take_le _ _

lemma mem_dictSet (d : List (Str × List Str)) (k : Str) (v : List Str)
    (e : Str × List Str) (he : e ∈ dictSet d k v) : e ∈ d ∨ e = (k, v) := by
  unfold dictSet at he
  by_cases hf : ((d.find? (fun p => p.1 == k)).isSome : Prop)
  · rw [if_pos hf] at he
    rcases List.mem_map.mp he with ⟨p, hp, hpe⟩
    by_cases hk : (p.1 == k) = true
    · right; rw [if_pos hk] at hpe; exact hpe.symm
    · left; rw [if_neg hk] at hpe; exact hpe ▸ hp
  · rw [if_neg hf] at he
    rcases List.mem_append.mp he with h | h
    · exact Or.inl h
    · exact Or.inr (List.mem_singleton.mp h)

lemma mem_buildFold (resources : List Resource) (services : List Resource)
    (m0 : List (Str × List Str)) (e : Str × List Str)
    (he : e ∈ services.foldl
      (fun m service =>
        let impl := implementingDeployments resources service.selector
        if impl.isEmpty then m else dictSet m service.name impl)
      m0) :
    e ∈ m0 ∨ ∃ s ∈ services, e = (s.name, implementingDeployments resources s.selector) ∧
      (implementingDeployments resources s.selector).isEmpty = false := by
  induction services generalizing m0 with
  | nil => exact Or.inl he
  | cons s ss ih =>
    rw [List.foldl_cons] at he
    rcases ih _ he with h | ⟨s', hs', hes', hne⟩
    · simp only at h
      by_cases hi : ((implementingDeployments resources s.selector).isEmpty : Prop)
      · rw [if_pos hi] at h
        exact Or.inl h
      · rw [if_neg hi] at h
        rcases mem_dictSet _ _ _ _ h with h' | h'
        · exact Or.inl h'
        · exact Or.inr ⟨s, List.mem_cons_self _ _, h', Bool.not_eq_true _ ▸ (by simpa using hi)⟩
    · exact Or.inr ⟨s', List.mem_cons_of_mem _ hs', hes', hne⟩

lemma implementingDeployments_mem (resources : List Resource) (sel : List (Str × Str))
    (n : Str) (hn : n ∈ implementingDeployments resources sel) :
    ∃ d ∈ resources, d.kind = kDeployment ∧ selectorCodeMatch sel d.labels = true ∧ d.name = n := by
  unfold implementingDeployments at hn
  rcases List.mem_filterMap.mp hn with ⟨r, hr, hrn⟩
  rcases List.mem_filter.mp hr with ⟨hrmem, hrk⟩
  by_cases hm : selectorCodeMatch sel r.labels = true
  · rw [if_pos hm] at hrn
    exact ⟨r, hrmem, by simpa using hrk, hm, Option.some_injective _ hrn⟩
  · rw [if_neg hm] at hrn
    exact absurd hrn (Option.some_ne_none n).symm

lemma selectorCodeMatch_selector_ne_nil (sel labels : List (Str × Str))
    (h : selectorCodeMatch sel labels = true) : sel ≠ [] := by
  intro hnil
  subst hnil
  simp [selectorCodeMatch] at h

/-- C10: every entry of the `service_to_deployment_map` has a non-empty
list of deployment names and comes from a Service record of the snapshot
with a non-empty selector and at least one Deployment passing the code's
selector match; the identical map is attached to every resource record
returned by the discovery post-processing. -/
theorem serviceMap_entries_sound (resources : List Resource) :
    (∀ e ∈ buildServiceToDeploymentMap (resources.filter (fun r => r.kind == kService)) resources,
        e.2 ≠ [] ∧
        ∃ s ∈ resources, s.kind = kService ∧ s.name = e.1 ∧ s.selector ≠ [] ∧
          ∃ d ∈ resources, d.kind = kDeployment ∧ selectorCodeMatch s.selector d.labels = true) ∧
    (∀ r ∈ attachServiceMap resources,
        r.svcMap = buildServiceToDeploymentMap (resources.filter (fun r => r.kind == kService)) resources) := by
  constructor
  · intro e he
    rcases mem_buildFold resources _ [] e he with h | ⟨s, hs, hes, hne⟩
    · simp at h
    · rcases List.mem_filter.mp hs with ⟨hsmem, hsk⟩
      have hne' : implementingDeployments resources s.selector ≠ [] := by
        intro hnil; rw [hnil] at hne; simp at hne
      rcases List.exists_mem_of_ne_nil _ hne' with ⟨n, hn⟩
      rcases implementingDeployments_mem resources s.selector n hn with ⟨d, hd, hdk, hdm, _⟩
      refine ⟨?_, s, hsmem, by simpa using hsk, by rw [hes], ?_, d, hd, hdk, hdm⟩
      · rw [hes]; exact hne'
      · exact selectorCodeMatch_selector_ne_nil _ _ hdm
  · intro r hr
    unfold attachServiceMap at hr
    rcases List.mem_map.mp hr with ⟨r0, _, hr0⟩
    rw [← hr0]

/-- C10 witness: the C10 theorem instantiated on the concrete snapshot
`snapA`. -/
theorem serviceMap_entries_sound_witness :
    (∀ e ∈ buildServiceToDeploymentMap (snapA.filter (fun r => r.kind == kService)) snapA,
        e.2 ≠ [] ∧
        ∃ s ∈ snapA, s.kind = kService ∧ s.name = e.1 ∧ s.selector ≠ [] ∧
          ∃ d ∈ snapA, d.kind = kDeployment ∧ selectorCodeMatch s.selector d.labels = true) ∧
    (∀ r ∈ attachServiceMap snapA,
        r.svcMap = buildServiceToDeploymentMap (snapA.filter (fun r => r.kind == kService)) snapA) :=
  serviceMap_entries_sound snapA

/-- C1: the failing input. A Service whose selector is `{app: x}` and a
Deployment with empty labels: the code's line-170 test skips absent
selector keys, so the Deployment is recorded as implementing the
Service, while the claimed (superset) match is false. -/
theorem selectorMatch_absent_key_divergence :
    selectorCodeMatch [("app".toList, "x".toList)] [] = true ∧
    selectorSpecMatch [("app".toList, "x".toList)] [] = false ∧
    buildServiceToDeploymentMap
      [⟨"svc_a".toList, "ns1".toList, kService, [], [], [("app".toList, "x".toList)], []⟩]
      [⟨"dep_a".toList, "ns1".toList, kDeployment, [], [], [], []⟩,
       ⟨"svc_a".toList, "ns1".toList, kService, [], [], [("app".toList, "x".toList)], []⟩]
      = [("svc_a".toList, ["dep_a".toList])] := by
  refine ⟨rfl, rfl, ?_⟩
  rfl

lemma mem_indirectDepsFor (resource : Resource) (rs : List Resource) (serviceName : Str)
    (d : Dep) (hd : d ∈ indirectDepsFor resource rs serviceName) :
    d.via = some serviceName ∧ d.name ≠ resource.name := by
  unfold indirectDepsFor at hd
  cases hm : dictGet resource.svcMap serviceName with
  | none => rw [hm] at hd; simp at hd
  | some depNames =>
    rw [hm] at hd
    rcases List.mem_filterMap.mp hd with ⟨depName, _, heq⟩
    by_cases hne : (depName == resource.name) = true
    · rw [if_pos hne] at heq; exact absurd heq (by simp)
    · rw [if_neg hne] at heq
      cases hf : rs.find? (fun r => r.kind == kDeployment && r.name == depName) with
      | none => rw [hf] at heq; exact absurd heq (by simp)
      | some depRes =>
        rw [hf] at heq
        have hd' := Option.some_injective _ heq
        constructor
        · rw [← hd']
        · rw [← hd']
          simpa using hne

lemma mem_depsForEnvValue_direct (resource : Resource) (rs : List Resource) (v : Str)
    (d : Dep) (hd : d ∈ depsForEnvValue resource rs v) (hvia : d.via = none) :
    ∃ s ∈ rs, s.kind = kService ∧ s.name = d.name ∧ isSubstrCI s.name v = true := by
  unfold depsForEnvValue at hd
  rcases List.mem_flatMap.mp hd with ⟨s, hs, hds⟩
  rcases List.mem_filter.mp hs with ⟨hsmem, hsk⟩
  by_cases hsub : isSubstrCI s.name v = true
  · rw [if_pos hsub] at hds
    rcases List.mem_cons.mp hds with h | h
    · exact ⟨s, hsmem, by simpa using hsk, by rw [h], hsub⟩
    · have := (mem_indirectDepsFor _ _ _ _ h).1
      rw [hvia] at this
      exact absurd this (by simp)
  · rw [if_neg hsub] at hds
    simp at hds

lemma direct_mem_depsForEnvValue (resource : Resource) (rs : List Resource) (v : Str)
    (svc : Resource) (hsvc : svc ∈ rs) (hsk : svc.kind = kService)
    (hsub : isSubstrCI svc.name v = true) :
    ∃ d ∈ depsForEnvValue resource rs v, d.via = none ∧ d.name = svc.name := by
  refine ⟨{ name := svc.name,
            identifier := generate_harness_identifier svc.name svc.ns svc.kind,
            type := kService, via := none }, ?_, rfl, rfl⟩
  unfold depsForEnvValue
  apply List.mem_flatMap.mpr
  refine ⟨svc, List.mem_filter.mpr ⟨hsvc, by simpa using hsk⟩, ?_⟩
  rw [if_pos hsub]
  exact List.mem_cons_self _ _

lemma computeDependencies_some (resource : Resource) (rs : List Resource)
    (hrs : rs ≠ []) (hk : resource.kind = kDeployment) :
    computeDependencies resource (some rs) =
      resource.env_vars.flatMap (fun kv => depsForEnvValue resource rs kv.2) := by
  show (if rs.isEmpty then [] else if (resource.kind == kDeployment) = true then
      resource.env_vars.flatMap (fun kv => depsForEnvValue resource rs kv.2) else []) = _
  rw [if_neg (by simpa [List.isEmpty_iff] using hrs), if_pos (by simpa using hk)]

/-- C6: no indirect dependency entry ever targets the consuming
resource's own name — an entry with `via` present has a name different
from the resource's. -/
theorem no_self_indirect_dependency (resource : Resource) (allResources : Option (List Resource))
    (d : Dep) (hd : d ∈ computeDependencies resource allResources) (hvia : d.via ≠ none) :
    d.name ≠ resource.name := by
  cases allResources with
  | none => simp [computeDependencies] at hd
  | some rs =>
    replace hd : d ∈ (if rs.isEmpty then [] else
        if (resource.kind == kDeployment) = true then
          resource.env_vars.flatMap (fun kv => depsForEnvValue resource rs kv.2)
        else []) := hd
    by_cases he : (rs.isEmpty : Prop)
    · rw [if_pos he] at hd; simp at hd
    · rw [if_neg he] at hd
      by_cases hk : (resource.kind == kDeployment) = true
      · rw [if_pos hk] at hd
        rcases List.mem_flatMap.mp hd with ⟨kv, _, hdkv⟩
        unfold depsForEnvValue at hdkv
        rcases List.mem_flatMap.mp hdkv with ⟨s, _, hds⟩
        by_cases hsub : isSubstrCI s.name kv.2 = true
        · rw [if_pos hsub] at hds
          rcases List.mem_cons.mp hds with h | h
          · rw [h] at hvia; simp at hvia
          · exact (mem_indirectDepsFor _ _ _ _ h).2
        · rw [if_neg hsub] at hds
          simp at hds
      · rw [if_neg hk] at hd; simp at hd

/-- C6 witness: in the concrete snapshot `snapB`, the indirect entry to
`dep_b` exists and the theorem yields its name differs from `dep_a`. -/
theorem no_self_indirect_dependency_witness : depBIndirect.name ≠ depAFull.name :=
  no_self_indirect_dependency depAFull (some snapB) depBIndirect (by decide) (by decide)

/-- C7: for a Deployment under dependency analysis (a non-empty
snapshot), a direct (Service-typed, no `via`) dependency entry naming a
given Service exists iff some environment value of the Deployment
contains the Service's name case-insensitively; and every direct entry
is backed by such a matching Service and environment value. -/
theorem direct_dependency_iff_env_substring (resource : Resource) (rs : List Resource)
    (svc : Resource) (hrs : rs ≠ []) (hk : resource.kind = kDeployment)
    (hsvc : svc ∈ rs) (hsk : svc.kind = kService) :
    ((∃ d ∈ computeDependencies resource (some rs), d.via = none ∧ d.name = svc.name) ↔
      (∃ kv ∈ resource.env_vars, isSubstrCI svc.name kv.2 = true)) ∧
    (∀ d ∈ computeDependencies resource (some rs), d.via = none →
      ∃ s ∈ rs, s.kind = kService ∧ s.name = d.name ∧
        ∃ kv ∈ resource.env_vars, isSubstrCI s.name kv.2 = true) := by
  rw [computeDependencies_some resource rs hrs hk]
  constructor
  · constructor
    · rintro ⟨d, hd, hvia, hname⟩
      rcases List.mem_flatMap.mp hd with ⟨kv, hkv, hdkv⟩
      rcases mem_depsForEnvValue_direct _ _ _ _ hdkv hvia with ⟨s, _, _, hsname, hsub⟩
      refine ⟨kv, hkv, ?_⟩
      rw [← hname, ← hsname]
      exact hsub
    · rintro ⟨kv, hkv, hsub⟩
      rcases direct_mem_depsForEnvValue resource rs kv.2 svc hsvc hsk hsub with ⟨d, hd, hvia, hname⟩
      exact ⟨d, List.mem_flatMap.mpr ⟨kv, hkv, hd⟩, hvia, hname⟩
  · intro d hd hvia
    rcases List.mem_flatMap.mp hd with ⟨kv, hkv, hdkv⟩
    rcases mem_depsForEnvValue_direct _ _ _ _ hdkv hvia with ⟨s, hsmem, hskind, hsname, hsub⟩
    exact ⟨s, hsmem, hskind, hsname, kv, hkv, hsub⟩

/-- C7 witness: the C7 theorem instantiated on the concrete snapshot
`snapB` with service `svc_a` and consumer `dep_a`. -/
theorem direct_dependency_iff_env_substring_witness :
    ((∃ d ∈ computeDependencies depAFull (some snapB), d.via = none ∧ d.name = svcA.name) ↔
      (∃ kv ∈ depAFull.env_vars, isSubstrCI svcA.name kv.2 = true)) ∧
    (∀ d ∈ computeDependencies depAFull (some snapB), d.via = none →
      ∃ s ∈ snapB, s.kind = kService ∧ s.name = d.name ∧
        ∃ kv ∈ depAFull.env_vars, isSubstrCI s.name kv.2 = true) :=
  direct_dependency_iff_env_substring depAFull snapB svcA (by decide) (by decide)
    (by decide) (by decide)

lemma register_calls_le_two (o : Bool → CallResult) :
    (register_in_harness o).2.length ≤ 2 := by
  unfold register_in_harness
  cases o false with
  | exn => simp [handleFirst]
  | ok r =>
    simp only [handleFirst]
    by_cases h1 : is2xx r.status = true
    · simp [h1]
    · rw [if_neg h1]
      by_cases h2 : isConflict400 r = true
      · rw [if_pos h2]
        cases o true with
        | exn => simp [handleUpsert]
        | ok r2 =>
          simp only [handleUpsert]
          by_cases h3 : is2xx r2.status = true
          · simp [h3]
          · simp [h3]
      · simp [h2]

/-- C2 counterexample: a first response that is a client error (4xx)
whose message indicates the entity already exists, but with status 409:
the code makes exactly one HTTP call, never retries in upsert mode, and
fails — the claimed retry happens only for status 400. -/
theorem upsert_retry_missed_on_409 :
    ((400 : Nat) ≤ 409 ∧ (409 : Nat) < 500) ∧
    isSubstr ("already exists".toList)
      (("entity already exists".toList).map Char.toLower) = true ∧
    register_in_harness conflict409Oracle = (false, [false]) := by
  exact ⟨by norm_num, by decide, by decide⟩

/-- C2 (amended): when the first registry response has status exactly
400 and its message indicates the entity already exists, the client
retries exactly once in upsert mode — precisely the two requests
create-then-upsert are attempted — succeeding iff the retry returns
2xx; and no run of the client ever attempts more than two requests. -/
theorem upsert_retry_on_400_conflict (oracle : Bool → CallResult) (r : Resp)
    (h0 : oracle false = CallResult.ok r) (h400 : r.status = 400)
    (hmsg : isSubstr ("already exists".toList) (r.body.map Char.toLower) = true) :
    (register_in_harness oracle).2 = [false, true] ∧
    ((register_in_harness oracle).1 = true ↔
      ∃ r2, oracle true = CallResult.ok r2 ∧ is2xx r2.status = true) ∧
    (∀ o2 : Bool → CallResult, (register_in_harness o2).2.length ≤ 2) := by
  have hconf : isConflict400 r = true := by
    unfold isConflict400
    rw [h400, hmsg]
    simp
  have h2xx : is2xx r.status = false := by rw [h400]; decide
  unfold register_in_harness
  rw [h0]
  simp only [handleFirst, h2xx, hconf, if_true, Bool.false_eq_true, if_false]
  refine ⟨?_, ?_, fun o2 => register_calls_le_two o2⟩
  · cases oracle true with
    | exn => simp [handleUpsert]
    | ok r2 =>
      simp only [handleUpsert]
      by_cases h3 : is2xx r2.status = true
      · simp [h3]
      · simp [h3]
  · cases ho : oracle true with
    | exn => simp [handleUpsert]
    | ok r2 =>
      simp only [handleUpsert]
      by_cases h3 : is2xx r2.status = true
      · simp only [h3, if_true]
        simp only [true_iff]
        exact ⟨r2, rfl, h3⟩
      · simp only [h3, Bool.false_eq_true, if_false]
        constructor
        · intro hfalse
          simp at hfalse
        · rintro ⟨r2', hr2', h2'⟩
          rw [CallResult.ok.injEq] at hr2'
          rw [← hr2'] at h2'
          rw [h2'] at h3
          exact absurd rfl h3

/-- C2 witness: the amended theorem instantiated on the concrete
400-then-200 oracle. -/
theorem upsert_retry_on_400_conflict_witness :
    (register_in_harness conflictThenOkOracle).2 = [false, true] ∧
    ((register_in_harness conflictThenOkOracle).1 = true ↔
      ∃ r2, conflictThenOkOracle true = CallResult.ok r2 ∧ is2xx r2.status = true) ∧
    (∀ o2 : Bool → CallResult, (register_in_harness o2).2.length ≤ 2) :=
  upsert_retry_on_400_conflict conflictThenOkOracle
    { status := 400, body := "already exists".toList } rfl rfl (by decide)

/-- C4: a Pod resource is skipped entirely — result `False`, no
document, no HTTP call. -/
theorem pod_skipped (oracle : Bool → CallResult) (resource : Resource)
    (allResources : Option (List Resource)) (h : resource.kind = kPod) :
    create_harness_entity oracle resource allResources = (false, none, []) := by
  unfold create_harness_entity
  rw [if_pos (by simpa using h)]

/-- C4 witness: the Pod-skip theorem applied to the concrete Pod
`podA`. -/
theorem pod_skipped_witness :
    create_harness_entity (fun _ => CallResult.exn) podA (some snapA) = (false, none, []) :=
  pod_skipped (fun _ => CallResult.exn) podA (some snapA) rfl

lemma create_calls_registry_only (oracle : Bool → CallResult) (resource : Resource)
    (allResources : Option (List Resource)) :
    ((create_harness_entity oracle resource allResources).2.2).all
      (fun c => !(c == Call.github)) = true := by
  unfold create_harness_entity
  by_cases h : (resource.kind == kPod) = true
  · rw [if_pos h]; rfl
  · rw [if_neg h]
    apply List.all_eq_true.mpr
    intro b hb
    rcases List.mem_map.mp hb with ⟨u, _, rfl⟩
    rfl

lemma mainFold_inv (oracles : Nat → Bool → CallResult) (resources : List Resource)
    (b : Bool) (l : List (Nat × Resource)) (acc : RunSummary)
    (hg : acc.githubSuccessCount = acc.harnessSuccessCount)
    (hc : acc.calls.all (fun c => !(c == Call.github)) = true) :
    (l.foldl (mainStep oracles resources b) acc).githubSuccessCount =
      (l.foldl (mainStep oracles resources b) acc).harnessSuccessCount ∧
    ((l.foldl (mainStep oracles resources b) acc).calls.all
      (fun c => !(c == Call.github))) = true := by
  induction l generalizing acc with
  | nil => exact ⟨hg, hc⟩
  | cons ir t ih =>
    rw [List.foldl_cons]
    apply ih
    · simp only [mainStep]
      rw [hg]
    · simp only [mainStep]
      rw [List.all_append]
      rw [hc, create_calls_registry_only]
      rfl

/-- C9: in every run, the two summary counters are equal (both are
incremented from the same per-resource boolean), and no call of the
main flow is a GitHub call — `push_to_github` is never invoked. -/
theorem github_count_eq_harness_count (oracles : Nat → Bool → CallResult)
    (resources : List Resource) (analyzeDependencies : Bool) :
    (mainLoop oracles resources analyzeDependencies).githubSuccessCount =
      (mainLoop oracles resources analyzeDependencies).harnessSuccessCount ∧
    ((mainLoop oracles resources analyzeDependencies).calls.all
      (fun c => !(c == Call.github))) = true := by
  unfold mainLoop
  exact mainFold_inv oracles resources analyzeDependencies _ _ rfl rfl

lemma mainFold_outcomes (oracles : Nat → Bool → CallResult) (resources : List Resource)
    (b : Bool) (l : List (Nat × Resource)) (acc : RunSummary) :
    (l.foldl (mainStep oracles resources b) acc).outcomes =
      acc.outcomes ++ l.map (fun ir => (create_harness_entity (oracles ir.1) ir.2
        (if b then some resources else none)).1) := by
  induction l generalizing acc with
  | nil => simp
  | cons ir t ih =>
    rw [List.foldl_cons, List.map_cons, ih]
    simp [mainStep]

lemma mainFold_total (oracles : Nat → Bool → CallResult) (resources : List Resource)
    (b : Bool) (l : List (Nat × Resource)) (acc : RunSummary) :
    (l.foldl (mainStep oracles resources b) acc).total = acc.total := by
  induction l generalizing acc with
  | nil => rfl
  | cons ir t ih => rw [List.foldl_cons, ih]; rfl

/-- C8: a transport-level exception on the create request is caught
inside `register_in_harness` (failure result, the single attempted
call recorded, no propagation); and the main loop always processes
every resource — each resource's outcome is its own
`create_harness_entity` result, independent of other resources'
failures, and the reported total is the full resource count. -/
theorem transport_failure_contained (o : Bool → CallResult)
    (h : o false = CallResult.exn) (oracles : Nat → Bool → CallResult)
    (resources : List Resource) (analyzeDependencies : Bool) :
    register_in_harness o = (false, [false]) ∧
    (mainLoop oracles resources analyzeDependencies).outcomes =
      resources.enum.map (fun ir => (create_harness_entity (oracles ir.1) ir.2
        (if analyzeDependencies then some resources else none)).1) ∧
    (mainLoop oracles resources analyzeDependencies).total = resources.length := by
  refine ⟨?_, ?_, ?_⟩
  · unfold register_in_harness
    rw [h]
    rfl
  · unfold mainLoop
    rw [mainFold_outcomes]
    simp
  · unfold mainLoop
    rw [mainFold_total]

/-- C8 witness: the containment theorem applied to the
always-raising oracle and the concrete snapshot `snapA`. -/
theorem transport_failure_contained_witness :
    register_in_harness (fun _ => CallResult.exn) = (false, [false]) ∧
    (mainLoop (fun _ _ => CallResult.exn) snapA true).outcomes =
      snapA.enum.map (fun ir => (create_harness_entity ((fun _ _ => CallResult.exn) ir.1) ir.2
        (if true then some snapA else none)).1) ∧
    (mainLoop (fun _ _ => CallResult.exn) snapA true).total = snapA.length :=
  transport_failure_contained (fun _ => CallResult.exn) rfl
    (fun _ _ => CallResult.exn) snapA true

/-- C3: the failing scenario. One Deployment whose registry publication
fails (HTTP 500 on the create request, no retry): the summary still
counts it as successfully registered, because `create_harness_entity`
discards `register_in_harness`'s return value (lines 292–293) and
returns `True` for every non-Pod resource. The processed total is
reported correctly. -/
theorem summary_counts_failed_publication :
    register_in_harness (fun _ => CallResult.ok { status := 500, body := [] }) =
      (false, [false]) ∧
    (mainLoop (fun _ _ => CallResult.ok { status := 500, body := [] }) [depA] false).total = 1 ∧
    (mainLoop (fun _ _ => CallResult.ok { status := 500, body := [] }) [depA] false).harnessSuccessCount = 1 := by
  refine ⟨by decide, by decide, by decide⟩

end CatalogSync
